import Mathlib

/-!
# Verification of the spicedb bootstrap and core contracts

This development embeds, in Lean 4, the bootstrap of the spicedb binary
(`cmd/spicedb/main.go`) and the core contracts described in the design
document (tuple store, namespace store, check engine, watch feed), and
proves the stated properties about them.

Part 1 models the bootstrap wiring: service registration, TLS server
construction, and the datastore construction in `rootRun`.

Part 2 models the core (the code of which lives outside the bootstrap):
the revisioned tuple store, the namespace store, the recursive check
evaluator with its depth/cycle guard, and the watch feed.
-/

deriving instance DecidableEq for Except

namespace SpiceDB

/-! ## Part 1: the bootstrap (`cmd/spicedb/main.go`) -/

/-- An argument handed to a service constructor at registration time:
either a namespace datastore instance or a tuple datastore instance,
identified by an allocation id. -/
inductive DatastoreArg
  | nsStore (id : Nat)
  | tupleStore (id : Nat)
deriving DecidableEq, Repr

/-- The ACL service server. `NewACLServer(tds)` in `main.go` takes the
tuple datastore only. -/
structure ACLServer where
  tds : Nat
deriving DecidableEq, Repr

/-- The namespace service server. `NewNamespaceServer(nsds)` takes the
namespace datastore only. -/
structure NamespaceServer where
  nsds : Nat
deriving DecidableEq, Repr

/-- The watch service server. `NewWatchServer()` in `main.go` takes no
arguments at all. -/
structure WatchServer where
deriving DecidableEq, Repr

/-- Model of `NewACLServer(tds)` from `internal/services` as called in `main.go`:
constructed from the tuple datastore alone. -/
def NewACLServer (tds : Nat) : ACLServer := ⟨tds⟩

/-- Model of `NewNamespaceServer(nsds)` as called in `main.go`. -/
def NewNamespaceServer (nsds : Nat) : NamespaceServer := ⟨nsds⟩

/-- Model of `NewWatchServer()` as called in `main.go`: no datastore argument. -/
def NewWatchServer : WatchServer := ⟨⟩

/-- The constructor arguments of an `ACLServer`, as datastore references. -/
def ACLServer.args (s : ACLServer) : List DatastoreArg := [.tupleStore s.tds]

/-- The constructor arguments of a `NamespaceServer`. -/
def NamespaceServer.args (s : NamespaceServer) : List DatastoreArg := [.nsStore s.nsds]

/-- The constructor arguments of a `WatchServer` (there are none). -/
def WatchServer.args (_ : WatchServer) : List DatastoreArg := []

/-- The result of `RegisterGrpcServices`: the set of servers registered on
the gRPC server, each holding exactly the constructor arguments the
bootstrap passed. -/
structure Registration where
  acl : ACLServer
  nsSrv : NamespaceServer
  watch : WatchServer
deriving DecidableEq, Repr

/-- Model of `RegisterGrpcServices(srv, nsds, tds)` from `main.go`:

```go
api.RegisterACLServiceServer(srv, services.NewACLServer(tds))
api.RegisterNamespaceServiceServer(srv, services.NewNamespaceServer(nsds))
api.RegisterWatchServiceServer(srv, services.NewWatchServer())
```
-/
def RegisterGrpcServices (nsds tds : Nat) : Registration :=
  { acl := NewACLServer tds
    nsSrv := NewNamespaceServer nsds
    watch := NewWatchServer }

/-- Abstract TLS credentials. -/
structure TlsCreds where
  cert : String
  key : String
deriving DecidableEq, Repr

/-- A gRPC server value: either plain or carrying TLS credentials. -/
inductive GrpcServer
  | plain
  | withCreds (creds : TlsCreds)
deriving DecidableEq, Repr

/-- Model of `NewTlsGrpcServer(certPath, keyPath)` from `main.go`:

```go
if certPath != "" && keyPath != "" {
    return nil, errors.New("missing one of required values: cert path, key path")
}
creds, err := credentials.NewServerTLSFromFile(certPath, keyPath)
if err != nil { return nil, err }
return grpc.NewServer(grpc.Creds(creds)), nil
```

`credentials.NewServerTLSFromFile` reads the filesystem, so it is taken as
a parameter `loadCreds`: an arbitrary fallible loader. -/
def NewTlsGrpcServer (loadCreds : String → String → Except String TlsCreds)
    (certPath keyPath : String) : Except String GrpcServer :=
  if certPath ≠ "" ∧ keyPath ≠ "" then
    .error "missing one of required values: cert path, key path"
  else
    match loadCreds certPath keyPath with
    | .error e => .error e
    | .ok creds => .ok (.withCreds creds)

/-- Whether `NewTlsGrpcServer` invokes the credential loader at all on the
given paths: it does exactly when the initial guard does not fire. -/
def tlsLoadAttempted (certPath keyPath : String) : Bool :=
  !(certPath ≠ "" && keyPath ≠ "")

/-- The allocation state of the process: the id the next in-memory
datastore constructor will return. Each memdb constructor hands out a
fresh instance, modelled by a fresh id. -/
structure World where
  nextId : Nat
deriving DecidableEq, Repr

/-- Model of `memdb.NewMemdbNamespaceDatastore()`: allocates a fresh in-memory
namespace datastore instance. -/
def NewMemdbNamespaceDatastore (w : World) : Nat × World :=
  (w.nextId, ⟨w.nextId + 1⟩)

/-- Model of `memdb.NewMemdbTupleDatastore()`: allocates a fresh in-memory tuple
datastore instance. -/
def NewMemdbTupleDatastore (w : World) : Nat × World :=
  (w.nextId, ⟨w.nextId + 1⟩)

/-- The datastore wiring performed by `rootRun` in `main.go`: construct a
fresh namespace datastore and a fresh tuple datastore as local values and
pass exactly those two to `RegisterGrpcServices`. Returns the resulting
registration together with the post-run world. -/
def rootRun (w : World) : Registration × World :=
  let nsAlloc := NewMemdbNamespaceDatastore w
  let tAlloc := NewMemdbTupleDatastore nsAlloc.2
  (RegisterGrpcServices nsAlloc.1 tAlloc.1, tAlloc.2)

/-- The datastore instance ids a registration refers to. -/
def Registration.storeIds (r : Registration) : List Nat :=
  [r.acl.tds, r.nsSrv.nsds]

/-! ## Part 2: the core (tuple store, namespace store, check engine, watch)

Modelled from the spec: the core's source is not part of the bootstrap
file, so every definition below follows the design document (§3–§4.4):
the data model of §3, `WriteTuples`/`QueryTuples` of §4.1,
`ReadNamespace`/`WriteNamespace` of §4.2, the recursive `Check` evaluator
with its depth/cycle guard of §4.3, and `Watch` of §4.4. -/

/-- Modelled from the spec: a relation tuple
`(namespace, objectID, relation, subjectNamespace, subjectID,
subjectRelation-or-none)` (§3). -/
structure RelationTuple where
  ns : String
  objectId : String
  relation : String
  subjectNs : String
  subjectId : String
  subjectRel : Option String
deriving DecidableEq, Repr

/-- Modelled from the spec: the closed tagged rewrite variant (§3). -/
inductive Rewrite
  | thisRelation
  | computedUserset (relation : String)
  | tupleToUserset (tuplesetRelation computedRelation : String)
  | union (children : List Rewrite)
  | intersection (children : List Rewrite)
  | exclusion (base subtract : Rewrite)

/-- Modelled from the spec: a relation definition — a name plus an
optional rewrite; an absent rewrite means the relation is satisfied only
by direct tuples (§3). -/
structure RelationDef where
  name : String
  rewrite : Option Rewrite

/-- Modelled from the spec: a namespace configuration — an id plus an
ordered set of relation definitions (§3). -/
structure NamespaceConfig where
  id : String
  relations : List RelationDef

/-- Modelled from the spec: the namespace store is an append-only log of
namespace configurations; the entry at index `i` was committed at
revision `i + 1`, so revisions are gapless and monotone (§3, §4.2). -/
abbrev NamespaceStore := List NamespaceConfig

/-- Modelled from the spec: `ReadNamespace(name, atRevision)` — the most
recently written configuration for `name` among the writes committed at
revisions `≤ atRevision`; `none` models `NotFound` (§4.2). -/
def ReadNamespace (s : NamespaceStore) (name : String) (atRev : Nat) :
    Option NamespaceConfig :=
  (List.take atRev s).reverse.find? (fun cfg => cfg.id == name)

/-- Modelled from the spec: `WriteNamespace(config) → Revision` appends to
the namespace log and returns the new head revision (§4.2). `SchemaError`
validation of in-namespace references is not modelled; no claim below
depends on it. -/
def WriteNamespace (s : NamespaceStore) (cfg : NamespaceConfig) :
    NamespaceStore × Nat :=
  (s ++ [cfg], s.length + 1)

/-- Modelled from the spec: a write operation, `ADD` or `DELETE` (§3). -/
inductive TupleOp
  | add
  | delete
deriving DecidableEq, Repr

/-- Modelled from the spec: one mutation of a write batch (§4.1). -/
structure TupleMutation where
  op : TupleOp
  tuple : RelationTuple
deriving DecidableEq, Repr

/-- Modelled from the spec: the tuple store is an append-only revision
log of committed write batches; the batch at index `i` was committed at
revision `i + 1`, making revisions a gapless monotone clock assigned per
batch (§3, §4.1). -/
structure TupleStore where
  batches : List (List TupleMutation)
deriving DecidableEq, Repr

/-- Modelled from the spec: `Revision() → current head` (§4.1). -/
def TupleStore.headRev (s : TupleStore) : Nat := s.batches.length

/-- The log entries committed at revisions `≤ r`, in commit order. -/
def TupleStore.entriesUpTo (s : TupleStore) (r : Nat) : List TupleMutation :=
  (s.batches.take r).flatten

/-- The write batch committed at revision `r` (empty when `r` is not a
revision of the log; revisions start at 1). -/
def TupleStore.batchAt (s : TupleStore) (r : Nat) : List TupleMutation :=
  if r = 0 then [] else s.batches.getD (r - 1) []

/-- Whether the last operation on tuple `t` in the entry list is an ADD:
the multi-version "the tuple is present" predicate over a log. -/
def liveIn (es : List TupleMutation) (t : RelationTuple) : Bool :=
  match es.reverse.find? (fun m => m.tuple == t) with
  | some m => m.op == .add
  | none => false

/-- Modelled from the spec: a tuple is present at revision `r` iff the
last log event about it at a revision `≤ r` is an ADD — deletes are new
log events, never physical erasure (§3). -/
def TupleStore.live (s : TupleStore) (r : Nat) (t : RelationTuple) : Bool :=
  liveIn (s.entriesUpTo r) t

/-- Modelled from the spec: a query filter
`{namespace, objectID?, relation?, subjectNamespace?, subjectID?}` (§4.1). -/
structure TupleFilter where
  ns : String
  objectId : Option String
  relation : Option String
  subjectNs : Option String
  subjectId : Option String

/-- An optional filter field matches when absent or equal. -/
def optMatch (f : Option String) (v : String) : Bool :=
  match f with
  | none => true
  | some x => x == v

/-- Whether a tuple matches a query filter. -/
def matchesFilter (f : TupleFilter) (t : RelationTuple) : Bool :=
  t.ns == f.ns && optMatch f.objectId t.objectId &&
    optMatch f.relation t.relation && optMatch f.subjectNs t.subjectNs &&
    optMatch f.subjectId t.subjectId

/-- Modelled from the spec: the result order of `QueryTuples` — by
`(objectID, relation, subjectNamespace, subjectID)` (§4.1). -/
def tupleLe (a b : RelationTuple) : Bool :=
  if a.objectId ≠ b.objectId then decide (a.objectId < b.objectId)
  else if a.relation ≠ b.relation then decide (a.relation < b.relation)
  else if a.subjectNs ≠ b.subjectNs then decide (a.subjectNs < b.subjectNs)
  else decide (a.subjectId ≤ b.subjectId)

/-- Insert a tuple into a `tupleLe`-sorted list, keeping it sorted. -/
def insertLe (a : RelationTuple) : List RelationTuple → List RelationTuple
  | [] => [a]
  | b :: bs => if tupleLe a b then a :: b :: bs else b :: insertLe a bs

/-- Sort a tuple list by the §4.1 order (insertion sort). -/
def sortTuples : List RelationTuple → List RelationTuple
  | [] => []
  | a :: as => insertLe a (sortTuples as)

/-- Modelled from the spec: `QueryTuples(filter, atRevision)` — every
tuple that appears in the log up to `atRevision`, is still present (live)
at `atRevision`, and matches the filter; each tuple once, in the §4.1
order. Snapshot-consistent: nothing committed after `atRevision` is
consulted (§4.1). -/
def QueryTuples (s : TupleStore) (f : TupleFilter) (atRev : Nat) :
    List RelationTuple :=
  sortTuples (((s.entriesUpTo atRev).map (fun m => m.tuple)).dedup.filter
    (fun t => matchesFilter f t && s.live atRev t))

/-- Modelled from the spec: the write error taxonomy relevant to
`WriteTuples` (§4.1, §7). -/
inductive WriteErr
  | preconditionFailed
  | invalidTuple
deriving DecidableEq, Repr

/-- Modelled from the spec: an optional existence/non-existence check
evaluated against the store at write time (§4.1). -/
structure Precondition where
  mustExist : Bool
  tuple : RelationTuple
deriving DecidableEq, Repr

/-- Whether a precondition holds on the current head of the store. -/
def precondHolds (s : TupleStore) (p : Precondition) : Bool :=
  s.live s.headRev p.tuple == p.mustExist

/-- Modelled from the spec: a tuple's namespace + relation must exist at
write time, read from the namespace store's head (§3, §4.1). -/
def tupleValid (nsS : NamespaceStore) (t : RelationTuple) : Bool :=
  match ReadNamespace nsS t.ns nsS.length with
  | none => false
  | some cfg => cfg.relations.any (fun rd => rd.name == t.relation)

/-- Modelled from the spec: `WriteTuples(mutations, preconditions) →
Revision` (§4.1). The whole batch is validated first; on any failure the
store is returned unchanged (atomic: all or nothing), otherwise the batch
is appended as one log entry at the next revision. The error priority
between `InvalidTuple` and `PreconditionFailed` is not fixed by the spec;
validity is checked first here. -/
def WriteTuples (nsS : NamespaceStore) (s : TupleStore)
    (mutations : List TupleMutation) (preconditions : List Precondition) :
    TupleStore × Except WriteErr Nat :=
  if mutations.any (fun m => !tupleValid nsS m.tuple) then
    (s, .error .invalidTuple)
  else if preconditions.any (fun p => !precondHolds s p) then
    (s, .error .preconditionFailed)
  else
    (⟨s.batches ++ [mutations]⟩, .ok (s.headRev + 1))

/-- Modelled from the spec: a watch event `(revision, tuple, operation)`
(§3). -/
structure WatchEvent where
  rev : Nat
  op : TupleOp
  tuple : RelationTuple
deriving DecidableEq, Repr

/-- Delivery of a list of committed batches, the first at revision
`start + 1`: each batch's events contiguously and in write order, batches
in commit order. -/
def eventsFrom : Nat → List (List TupleMutation) → List WatchEvent
  | _, [] => []
  | start, b :: bs =>
      b.map (fun m => ⟨start + 1, m.op, m.tuple⟩) ++ eventsFrom (start + 1) bs

/-- Modelled from the spec: `Watch(sinceRevision)` — the ordered stream
of events of every batch committed after `sinceRevision`, replayed from
the revision log (§4.4). The log is fully retained (append-only, §3), so
every cursor `≤` head is within the retained history. -/
def Watch (s : TupleStore) (since : Nat) : List WatchEvent :=
  eventsFrom since (s.batches.drop since)

/-- Modelled from the spec: the error taxonomy of `Check` (§4.3, §7). -/
inductive CheckErr
  | namespaceNotFound
  | relationNotFound
  | evaluationDepthExceeded
deriving DecidableEq, Repr

/-- Modelled from the spec: one entry of the evaluation path tracked by
the cycle guard — `(namespace, objectID, relation)` (§4.3). -/
structure PathEntry where
  ns : String
  objectId : String
  relation : String
deriving DecidableEq, Repr

/-- Modelled from the spec: the subject of a check —
`(subjectNamespace, subjectID, subjectRelation-or-none)` (§3, §4.3). -/
structure Subject where
  ns : String
  id : String
  rel : Option String
deriving DecidableEq, Repr

/-- Whether a tuple's subject fields are exactly the given subject. -/
def matchesSubject (t : RelationTuple) (subj : Subject) : Bool :=
  t.subjectNs == subj.ns && t.subjectId == subj.id && t.subjectRel == subj.rel

/-- The `(namespace, objectID, relation)` targets named by the userset
subjects of a list of tuples: for each tuple whose subject carries a
relation, the nested check the spec's `ThisRelation` step performs
(§4.3, step 2). -/
def usersetTargets (ts : List RelationTuple) : List (String × String × String) :=
  ts.filterMap (fun t => t.subjectRel.map (fun sr => (t.subjectNs, t.subjectId, sr)))

/-- One unit of work of the recursive evaluator: a nested check of a
relation, the evaluation of one rewrite node, a short-circuit OR over
nested checks, or a short-circuit OR/AND over a rewrite node's children. -/
inductive CheckTask
  | rel (ns objectId relation : String)
  | rw (ns objectId relation : String) (r : Rewrite)
  | anyRel (targets : List (String × String × String))
  | anyRw (ns objectId relation : String) (rs : List Rewrite)
  | allRw (ns objectId relation : String) (rs : List Rewrite)

/-- Modelled from the spec: the recursive rewrite evaluator of `Check`
(§4.3). It is parameterised by the two reads it performs — `readNs` and
`query` — which the top-level `Check` pins to one revision for the whole
call, so every sub-read observes the same snapshot (§4.3, §5).

The guard of §4.3 step 3 is explicit data: `path` is the set of
`(namespace, objectID, relation)` on the current evaluation path (a
repeat fails with `EvaluationDepthExceeded`), and the `Nat` argument is
the remaining depth budget, decremented at every recursion step; it
reaches `0` — `EvaluationDepthExceeded` — only when the configured bound
is exceeded. Union and intersection children and the nested checks of
`ThisRelation` / `TupleToUserset` evaluate left to right with
short-circuiting; an error in an evaluated part aborts the whole call
(§7). -/
def evalCheck (readNs : String → Option NamespaceConfig)
    (query : TupleFilter → List RelationTuple) (subj : Subject) :
    Nat → List PathEntry → CheckTask → Except CheckErr Bool
  | 0, _, _ => .error .evaluationDepthExceeded
  | f + 1, path, task =>
    match task with
    | .rel ns obj rel =>
        if (⟨ns, obj, rel⟩ : PathEntry) ∈ path then
          .error .evaluationDepthExceeded
        else
          match readNs ns with
          | none => .error .namespaceNotFound
          | some cfg =>
            match cfg.relations.find? (fun rd => rd.name == rel) with
            | none => .error .relationNotFound
            | some rd =>
                evalCheck readNs query subj f (⟨ns, obj, rel⟩ :: path)
                  (.rw ns obj rel (rd.rewrite.getD .thisRelation))
    | .rw ns obj rel r =>
      match r with
      | .thisRelation =>
          let ts := query ⟨ns, some obj, some rel, none, none⟩
          if ts.any (fun t => matchesSubject t subj) then .ok true
          else evalCheck readNs query subj f path (.anyRel (usersetTargets ts))
      | .computedUserset r2 =>
          evalCheck readNs query subj f path (.rel ns obj r2)
      | .tupleToUserset tsr cr =>
          let ts := query ⟨ns, some obj, some tsr, none, none⟩
          evalCheck readNs query subj f path
            (.anyRel (ts.map (fun t => (t.subjectNs, t.subjectId, cr))))
      | .union cs => evalCheck readNs query subj f path (.anyRw ns obj rel cs)
      | .intersection cs =>
          evalCheck readNs query subj f path (.allRw ns obj rel cs)
      | .exclusion base subtract => do
          let b ← evalCheck readNs query subj f path (.rw ns obj rel base)
          if b then do
            let sub ← evalCheck readNs query subj f path (.rw ns obj rel subtract)
            pure !sub
          else
            pure false
    | .anyRel [] => .ok false
    | .anyRel (t :: ts) => do
        let b ← evalCheck readNs query subj f path (.rel t.1 t.2.1 t.2.2)
        if b then pure true else evalCheck readNs query subj f path (.anyRel ts)
    | .anyRw _ _ _ [] => .ok false
    | .anyRw ns obj rel (c :: cs) => do
        let b ← evalCheck readNs query subj f path (.rw ns obj rel c)
        if b then pure true
        else evalCheck readNs query subj f path (.anyRw ns obj rel cs)
    | .allRw _ _ _ [] => .ok true
    | .allRw ns obj rel (c :: cs) => do
        let b ← evalCheck readNs query subj f path (.rw ns obj rel c)
        if b then evalCheck readNs query subj f path (.allRw ns obj rel cs)
        else pure false

/-- Modelled from the spec: `Check(namespace, objectID, relation, subject,
atRevision)` (§4.3) with configured depth bound `bound`. Both sub-read
functions are pinned to `atRev` at call start, so one call observes one
consistent snapshot across all nested reads (§4.3, §5). -/
def Check (nsS : NamespaceStore) (tS : TupleStore) (bound : Nat)
    (ns objectId relation : String) (subj : Subject) (atRev : Nat) :
    Except CheckErr Bool :=
  evalCheck (fun n => ReadNamespace nsS n atRev)
    (fun f => QueryTuples tS f atRev) subj bound [] (.rel ns objectId relation)

/-! ## Theorems for the claims -/

/-- Claim C1, counterexample: at `nsds = 0`, `tds = 1`, the namespace
datastore is not among the constructor arguments of the server that
implements `Check` (the ACL server), so that server does not receive both
stores as the claim states. -/
theorem registerGrpcServices_acl_no_nsds :
    DatastoreArg.nsStore 0 ∉ (RegisterGrpcServices 0 1).acl.args := by
  decide

/-- Claim C1 (amended): in `RegisterGrpcServices`, the server implementing
`Check` (the ACL server) is constructed from the tuple datastore alone —
its constructor argument list is exactly `[tupleStore tds]`, and the
namespace datastore it would need is never passed to it. -/
theorem registerGrpcServices_acl_args (nsds tds : Nat) :
    (RegisterGrpcServices nsds tds).acl = NewACLServer tds ∧
    (RegisterGrpcServices nsds tds).acl.args = [.tupleStore tds] ∧
    ∀ i, DatastoreArg.nsStore i ∉ (RegisterGrpcServices nsds tds).acl.args := by
  refine ⟨rfl, rfl, fun i h => ?_⟩
  simp [RegisterGrpcServices, NewACLServer, ACLServer.args] at h

/-- Claim C1, witness for the amended theorem at `nsds = 0`, `tds = 1`. -/
theorem registerGrpcServices_acl_args_witness :
    (RegisterGrpcServices 0 1).acl = NewACLServer 1 ∧
    DatastoreArg.nsStore 0 ∉ (RegisterGrpcServices 0 1).acl.args :=
  ⟨(registerGrpcServices_acl_args 0 1).1,
    (registerGrpcServices_acl_args 0 1).2.2 0⟩

/-- Claim C2, counterexample: at `nsds = 0`, `tds = 1`, the tuple
datastore handed to the ACL (write-path) server is not among the watch
server's constructor arguments — `NewWatchServer()` is called with no
arguments. -/
theorem registerGrpcServices_watch_no_tds :
    DatastoreArg.tupleStore 1 ∉ (RegisterGrpcServices 0 1).watch.args := by
  decide

/-- Claim C2 (amended): in `RegisterGrpcServices`, the watch server is
constructed with no arguments at all; it receives no datastore — in
particular not the tuple datastore the ACL service uses. -/
theorem registerGrpcServices_watch_args (nsds tds : Nat) :
    (RegisterGrpcServices nsds tds).watch = NewWatchServer ∧
    (RegisterGrpcServices nsds tds).watch.args = [] := ⟨rfl, rfl⟩

/-- Claim C9, counterexample: with both paths empty (so not both
non-empty) and a loader that fails, `NewTlsGrpcServer` still returns an
error — refuting "returns an error exactly when both paths are
non-empty". -/
theorem newTlsGrpcServer_error_not_only_guard :
    NewTlsGrpcServer (fun _ _ => .error "open : no such file") "" ""
        = .error "open : no such file" ∧
      ¬(("" : String) ≠ "" ∧ ("" : String) ≠ "") := by
  constructor
  · rfl
  · simp

/-- Claim C9 (amended): `NewTlsGrpcServer` returns its validation error
whenever both `certPath` and `keyPath` are non-empty — then no server is
returned and the result does not depend on the credential loader — and
credential loading from files is attempted exactly when at least one of
the two paths is the empty string (where it can itself fail). -/
theorem newTlsGrpcServer_guard (loadCreds : String → String → Except String TlsCreds)
    (certPath keyPath : String) :
    (certPath ≠ "" ∧ keyPath ≠ "" →
      NewTlsGrpcServer loadCreds certPath keyPath
        = .error "missing one of required values: cert path, key path") ∧
    (tlsLoadAttempted certPath keyPath = true ↔
      ¬(certPath ≠ "" ∧ keyPath ≠ "")) ∧
    (tlsLoadAttempted certPath keyPath = false →
      ∀ load2, NewTlsGrpcServer loadCreds certPath keyPath
        = NewTlsGrpcServer load2 certPath keyPath) := by
  refine ⟨fun h => ?_, ?_, fun h load2 => ?_⟩
  · simp [NewTlsGrpcServer, h]
  · simp [tlsLoadAttempted]
    tauto
  · simp [tlsLoadAttempted] at h
    simp [NewTlsGrpcServer, h]

/-- Claim C9, witness for the amended theorem: at `certPath = "c"`,
`keyPath = "k"` the guard fires and no loading happens. -/
theorem newTlsGrpcServer_guard_witness :
    NewTlsGrpcServer (fun _ _ => .ok ⟨"", ""⟩) "c" "k"
        = .error "missing one of required values: cert path, key path" ∧
      NewTlsGrpcServer (fun _ _ => .ok ⟨"", ""⟩) "c" "k"
        = NewTlsGrpcServer (fun _ _ => .error "boom") "c" "k" := by
  have h := newTlsGrpcServer_guard (fun _ _ => .ok ⟨"", ""⟩) "c" "k"
  refine ⟨h.1 (by decide), ?_⟩
  rw [h.1 (by decide), ((newTlsGrpcServer_guard
    (fun _ _ => .error "boom") "c" "k").1 (by decide))]

/-- In a configuration where relation `A` rewrites to
`ComputedUserset(B)` and `B` rewrites to `ComputedUserset(A)`, every
evaluator state — any fuel, any path — fails with
`EvaluationDepthExceeded` on `A` and on `B`: either the depth budget runs
out or the path guard sees the repeat. -/
theorem evalCheck_cu_cycle
    (readNs : String → Option NamespaceConfig)
    (query : TupleFilter → List RelationTuple) (subj : Subject)
    (ns obj A B : String) (cfg : NamespaceConfig) (rdA rdB : RelationDef)
    (hns : readNs ns = some cfg)
    (hA : cfg.relations.find? (fun rd => rd.name == A) = some rdA)
    (hArw : rdA.rewrite = some (.computedUserset B))
    (hB : cfg.relations.find? (fun rd => rd.name == B) = some rdB)
    (hBrw : rdB.rewrite = some (.computedUserset A)) :
    ∀ f path,
      evalCheck readNs query subj f path (.rel ns obj A)
          = .error .evaluationDepthExceeded ∧
      evalCheck readNs query subj f path (.rel ns obj B)
          = .error .evaluationDepthExceeded ∧
      evalCheck readNs query subj f path (.rw ns obj A (.computedUserset B))
          = .error .evaluationDepthExceeded ∧
      evalCheck readNs query subj f path (.rw ns obj B (.computedUserset A))
          = .error .evaluationDepthExceeded := by
  intro f
  induction f with
  | zero => exact fun path => ⟨rfl, rfl, rfl, rfl⟩
  | succ f ih =>
    intro path
    refine ⟨?_, ?_, ?_, ?_⟩
    · simp only [evalCheck]
      by_cases hmem : (⟨ns, obj, A⟩ : PathEntry) ∈ path
      · simp [hmem]
      · simp only [hmem, if_false, hns, hA, hArw, Option.getD_some]
        exact (ih _).2.2.1
    · simp only [evalCheck]
      by_cases hmem : (⟨ns, obj, B⟩ : PathEntry) ∈ path
      · simp [hmem]
      · simp only [hmem, if_false, hns, hB, hBrw, Option.getD_some]
        exact (ih _).2.2.2
    · simp only [evalCheck]
      exact (ih path).2.1
    · simp only [evalCheck]
      exact (ih path).1

/-- Claim C3: for every namespace configuration in which relation `A` is
`ComputedUserset(B)` and relation `B` is `ComputedUserset(A)`, every
`Check` call on `A` or on `B` — any store, any depth bound, any object,
subject and revision — returns the error `EvaluationDepthExceeded`: the
evaluator is total, so it never hangs or crashes, and it never produces a
boolean. -/
theorem check_cu_cycle_depth_exceeded (nsS : NamespaceStore) (tS : TupleStore)
    (bound : Nat) (ns obj A B : String) (subj : Subject) (atRev : Nat)
    (cfg : NamespaceConfig) (rdA rdB : RelationDef)
    (hns : ReadNamespace nsS ns atRev = some cfg)
    (hA : cfg.relations.find? (fun rd => rd.name == A) = some rdA)
    (hArw : rdA.rewrite = some (.computedUserset B))
    (hB : cfg.relations.find? (fun rd => rd.name == B) = some rdB)
    (hBrw : rdB.rewrite = some (.computedUserset A)) :
    Check nsS tS bound ns obj A subj atRev = .error .evaluationDepthExceeded ∧
    Check nsS tS bound ns obj B subj atRev = .error .evaluationDepthExceeded := by
  have h := evalCheck_cu_cycle (fun n => ReadNamespace nsS n atRev)
    (fun f => QueryTuples tS f atRev) subj ns obj A B cfg rdA rdB hns hA hArw
    hB hBrw bound []
  exact ⟨h.1, h.2.1⟩

/-- A two-relation cycle configuration: `a = ComputedUserset(b)` and
`b = ComputedUserset(a)` in namespace `doc`. -/
def cycleConfig : NamespaceConfig :=
  ⟨"doc", [⟨"a", some (.computedUserset "b")⟩, ⟨"b", some (.computedUserset "a")⟩]⟩

/-- Claim C3, witness: on the concrete cycle configuration, with an empty
tuple store and depth bound 10, `Check` on `a` and on `b` both return
`EvaluationDepthExceeded`. -/
theorem check_cu_cycle_witness :
    Check [cycleConfig] ⟨[]⟩ 10 "doc" "1" "a" ⟨"user", "alice", none⟩ 1
        = .error .evaluationDepthExceeded ∧
      Check [cycleConfig] ⟨[]⟩ 10 "doc" "1" "b" ⟨"user", "alice", none⟩ 1
        = .error .evaluationDepthExceeded :=
  check_cu_cycle_depth_exceeded [cycleConfig] ⟨[]⟩ 10 "doc" "1" "a" "b"
    ⟨"user", "alice", none⟩ 1 cycleConfig
    ⟨"a", some (.computedUserset "b")⟩ ⟨"b", some (.computedUserset "a")⟩
    rfl rfl rfl rfl rfl

/-- Claim C5: for a relation whose rewrite is `Exclusion(base, subtract)`,
whenever the two branches evaluate to booleans `bb` and `ss` (at the
fuel and path the enclosing `Check` hands them), `Check` returns
`ok (bb && !ss)`-semantics: if `subtract` yields `true` then `Check`
returns `false` regardless of the result `bb` of `base`, and `Check` is
`true` iff `base` is `true` and `subtract` is `false`. -/
theorem check_exclusion (nsS : NamespaceStore) (tS : TupleStore)
    (ns obj rel : String) (subj : Subject) (atRev f : Nat)
    (base subtract : Rewrite) (cfg : NamespaceConfig) (rd : RelationDef)
    (bb ss : Bool)
    (hns : ReadNamespace nsS ns atRev = some cfg)
    (hrd : cfg.relations.find? (fun r => r.name == rel) = some rd)
    (hrw : rd.rewrite = some (.exclusion base subtract))
    (hb : evalCheck (fun n => ReadNamespace nsS n atRev)
      (fun fl => QueryTuples tS fl atRev) subj f [⟨ns, obj, rel⟩]
      (.rw ns obj rel base) = .ok bb)
    (hs : evalCheck (fun n => ReadNamespace nsS n atRev)
      (fun fl => QueryTuples tS fl atRev) subj f [⟨ns, obj, rel⟩]
      (.rw ns obj rel subtract) = .ok ss) :
    (ss = true → Check nsS tS (f + 2) ns obj rel subj atRev = .ok false) ∧
    (Check nsS tS (f + 2) ns obj rel subj atRev = .ok true ↔
      bb = true ∧ ss = false) := by
  have key : Check nsS tS (f + 2) ns obj rel subj atRev = .ok (bb && !ss) := by
    show evalCheck (fun n => ReadNamespace nsS n atRev)
      (fun fl => QueryTuples tS fl atRev) subj (f + 1 + 1) []
      (.rel ns obj rel) = _
    simp only [evalCheck, List.not_mem_nil, if_false, hns, hrd, hrw,
      Option.getD_some]
    cases bb with
    | false =>
        rw [hb]
        rfl
    | true =>
        rw [hb]
        show not <$> evalCheck (fun n => ReadNamespace nsS n atRev)
          (fun fl => QueryTuples tS fl atRev) subj f [⟨ns, obj, rel⟩]
          (.rw ns obj rel subtract) = .ok (true && !ss)
        rw [hs]
        rfl
  refine ⟨fun hss => ?_, ?_⟩
  · rw [key, hss]
    simp
  · rw [key]
    cases bb <;> cases ss <;> simp

/-- A relation `allowed = Exclusion(ThisRelation, ThisRelation)` in
namespace `doc`: with a direct `allowed` tuple both branches hold, so the
subtraction wins. -/
def exclusionConfig : NamespaceConfig :=
  ⟨"doc", [⟨"allowed", some (.exclusion .thisRelation .thisRelation)⟩]⟩

/-- The store holding the single direct tuple
`doc:1#allowed@user:alice`. -/
def exclusionStore : TupleStore :=
  ⟨[[⟨.add, ⟨"doc", "1", "allowed", "user", "alice", none⟩⟩]]⟩

/-- Claim C5, witness: on the concrete exclusion configuration where the
`subtract` branch evaluates to `true` (and `base` to `true`), `Check`
returns `ok false`, and the `true`-iff fails on its right side. -/
theorem check_exclusion_witness :
    Check [exclusionConfig] exclusionStore 5 "doc" "1" "allowed"
      ⟨"user", "alice", none⟩ 1 = .ok false :=
  (check_exclusion [exclusionConfig] exclusionStore "doc" "1" "allowed"
    ⟨"user", "alice", none⟩ 1 3 .thisRelation .thisRelation exclusionConfig
    ⟨"allowed", some (.exclusion .thisRelation .thisRelation)⟩ true true
    rfl rfl rfl (by decide) (by decide)).1 rfl

/-- A namespace read pinned to revision `R` ignores namespace writes
committed after `R`. -/
theorem readNamespace_append (nsS ext : NamespaceStore) (name : String)
    (R : Nat) (h : R ≤ nsS.length) :
    ReadNamespace (nsS ++ ext) name R = ReadNamespace nsS name R := by
  unfold ReadNamespace
  rw [List.take_append_of_le_length h]

/-- The log entries at revisions `≤ R` ignore batches committed after
`R`. -/
theorem entriesUpTo_append (tS : TupleStore) (ext : List (List TupleMutation))
    (R : Nat) (h : R ≤ tS.headRev) :
    TupleStore.entriesUpTo ⟨tS.batches ++ ext⟩ R = tS.entriesUpTo R := by
  unfold TupleStore.entriesUpTo
  rw [List.take_append_of_le_length h]

/-- A tuple query pinned to revision `R` ignores batches committed after
`R`. -/
theorem queryTuples_append (tS : TupleStore) (ext : List (List TupleMutation))
    (f : TupleFilter) (R : Nat) (h : R ≤ tS.headRev) :
    QueryTuples ⟨tS.batches ++ ext⟩ f R = QueryTuples tS f R := by
  unfold QueryTuples TupleStore.live
  rw [entriesUpTo_append tS ext R h]

/-- Claim C4: snapshot isolation of `Check`. For every pair of store
states, revision `R` of both, and batches committed after `R` (any
suffixes appended to the two logs — every batch a writer commits after
`R` is such a suffix, at revisions `> R`), the check pinned to `R`
returns the same result before and after the later writes: the two runs
cannot be distinguished. -/
theorem check_snapshot_isolation (nsS extN : NamespaceStore)
    (tS : TupleStore) (extT : List (List TupleMutation)) (bound : Nat)
    (ns obj rel : String) (subj : Subject) (R : Nat)
    (hn : R ≤ nsS.length) (ht : R ≤ tS.headRev) :
    Check (nsS ++ extN) ⟨tS.batches ++ extT⟩ bound ns obj rel subj R
      = Check nsS tS bound ns obj rel subj R := by
  have e1 : (fun n => ReadNamespace (nsS ++ extN) n R)
      = (fun n => ReadNamespace nsS n R) :=
    funext fun n => readNamespace_append nsS extN n R hn
  have e2 : (fun f => QueryTuples ⟨tS.batches ++ extT⟩ f R)
      = (fun f => QueryTuples tS f R) :=
    funext fun f => queryTuples_append tS extT f R ht
  unfold Check
  rw [e1, e2]

/-- Claim C4, witness: a concrete check pinned to revision 1 returns
`ok true` both before and after a later delete of the very tuple it
relies on, and a later namespace write. -/
theorem check_snapshot_isolation_witness :
    Check ([⟨"doc", [⟨"viewer", none⟩]⟩] ++ [⟨"other", []⟩])
        ⟨[[⟨.add, ⟨"doc", "1", "viewer", "user", "alice", none⟩⟩]]
          ++ [[⟨.delete, ⟨"doc", "1", "viewer", "user", "alice", none⟩⟩]]⟩
        10 "doc" "1" "viewer" ⟨"user", "alice", none⟩ 1
      = Check [⟨"doc", [⟨"viewer", none⟩]⟩]
        ⟨[[⟨.add, ⟨"doc", "1", "viewer", "user", "alice", none⟩⟩]]⟩
        10 "doc" "1" "viewer" ⟨"user", "alice", none⟩ 1 ∧
    Check [⟨"doc", [⟨"viewer", none⟩]⟩]
        ⟨[[⟨.add, ⟨"doc", "1", "viewer", "user", "alice", none⟩⟩]]⟩
        10 "doc" "1" "viewer" ⟨"user", "alice", none⟩ 1 = .ok true :=
  ⟨check_snapshot_isolation [⟨"doc", [⟨"viewer", none⟩]⟩] [⟨"other", []⟩]
    ⟨[[⟨.add, ⟨"doc", "1", "viewer", "user", "alice", none⟩⟩]]⟩
    [[⟨.delete, ⟨"doc", "1", "viewer", "user", "alice", none⟩⟩]]
    10 "doc" "1" "viewer" ⟨"user", "alice", none⟩ 1 (by decide) (by decide),
   by decide⟩

/-- Claim C7: `WriteTuples` is atomic. If it returns an error
(`PreconditionFailed` or `InvalidTuple`, the only write errors), the
store it returns is the input store — contents and head revision
unchanged, so no mutation of the batch is visible at any revision.
If it returns a revision, that revision is the new head `headRev + 1`,
the whole batch is the log entry at exactly that revision (in write
order), and every batch at an earlier revision is untouched. -/
theorem writeTuples_atomic (nsS : NamespaceStore) (s : TupleStore)
    (muts : List TupleMutation) (pres : List Precondition) :
    (∀ e, (WriteTuples nsS s muts pres).2 = .error e →
      (WriteTuples nsS s muts pres).1 = s) ∧
    (∀ rev, (WriteTuples nsS s muts pres).2 = .ok rev →
      rev = s.headRev + 1 ∧
      (WriteTuples nsS s muts pres).1.batches = s.batches ++ [muts] ∧
      (WriteTuples nsS s muts pres).1.headRev = rev ∧
      (WriteTuples nsS s muts pres).1.batchAt rev = muts ∧
      ∀ r, r ≤ s.headRev →
        (WriteTuples nsS s muts pres).1.batchAt r = s.batchAt r) := by
  unfold WriteTuples
  by_cases hval : muts.any (fun m => !tupleValid nsS m.tuple)
  · rw [if_pos hval]
    exact ⟨fun e _ => rfl, fun rev h => Except.noConfusion h⟩
  · rw [if_neg hval]
    by_cases hpre : pres.any (fun p => !precondHolds s p)
    · rw [if_pos hpre]
      exact ⟨fun e _ => rfl, fun rev h => Except.noConfusion h⟩
    · rw [if_neg hpre]
      refine ⟨fun e h => Except.noConfusion h, fun rev h => ?_⟩
      have hrev : s.headRev + 1 = rev := by injection h
      subst hrev
      refine ⟨rfl, rfl, ?_, ?_, ?_⟩
      · show (s.batches ++ [muts]).length = s.headRev + 1
        simp [TupleStore.headRev]
      · show TupleStore.batchAt ⟨s.batches ++ [muts]⟩ (s.headRev + 1) = muts
        unfold TupleStore.batchAt
        simp [TupleStore.headRev, List.getD]
      · intro r hr
        show TupleStore.batchAt ⟨s.batches ++ [muts]⟩ r = s.batchAt r
        unfold TupleStore.batchAt
        rcases Nat.eq_zero_or_pos r with h0 | hpos
        · simp [h0]
        · have hne : r ≠ 0 := Nat.pos_iff_ne_zero.mp hpos
          have hlt : r - 1 < s.batches.length := by
            have : r ≤ s.batches.length := hr
            omega
          simp only [hne, if_false, List.getD, List.get?_eq_getElem?]
          rw [List.getElem?_append_left hlt]

/-- Claim C7, witness: a successful concrete write commits the whole
batch at the returned revision and keeps earlier batches, and a failing
concrete write (unmet precondition) leaves the store unchanged. -/
theorem writeTuples_atomic_witness :
    (WriteTuples [⟨"doc", [⟨"viewer", none⟩]⟩] ⟨[]⟩
        [⟨.add, ⟨"doc", "1", "viewer", "user", "alice", none⟩⟩] []).1.batches
      = [] ++ [[⟨.add, ⟨"doc", "1", "viewer", "user", "alice", none⟩⟩]] ∧
    (WriteTuples [⟨"doc", [⟨"viewer", none⟩]⟩] ⟨[]⟩
        [⟨.add, ⟨"doc", "1", "viewer", "user", "alice", none⟩⟩]
        [⟨true, ⟨"doc", "9", "viewer", "user", "bob", none⟩⟩]).1 = ⟨[]⟩ :=
  ⟨((writeTuples_atomic [⟨"doc", [⟨"viewer", none⟩]⟩] ⟨[]⟩
      [⟨.add, ⟨"doc", "1", "viewer", "user", "alice", none⟩⟩] []).2 1
      (by decide)).2.1,
   (writeTuples_atomic [⟨"doc", [⟨"viewer", none⟩]⟩] ⟨[]⟩
      [⟨.add, ⟨"doc", "1", "viewer", "user", "alice", none⟩⟩]
      [⟨true, ⟨"doc", "9", "viewer", "user", "bob", none⟩⟩]).1
      .preconditionFailed (by decide)⟩

/-- The liveness of any tuple is unchanged by a duplicated trailing log
event: the last matching event decides, and doubling it changes
nothing. -/
theorem liveIn_dup (E : List TupleMutation) (m : TupleMutation)
    (t : RelationTuple) : liveIn (E ++ [m, m]) t = liveIn (E ++ [m]) t := by
  unfold liveIn
  by_cases h : (m.tuple == t)
  · simp [List.find?_cons_of_pos, h]
  · simp [List.find?_cons_of_neg, h]

/-- Deduplication is unchanged by a duplicated trailing element. -/
theorem dedup_dup {α : Type} [DecidableEq α] (xs : List α) (a : α) :
    (xs ++ [a, a]).dedup = (xs ++ [a]).dedup := by
  rw [List.dedup_append, List.dedup_append]
  congr 1
  rw [List.dedup_cons_of_mem (by simp)]

/-- The entries at the head revision are the whole log. -/
theorem entriesUpTo_headRev (s : TupleStore) :
    s.entriesUpTo s.headRev = s.batches.flatten := by
  unfold TupleStore.entriesUpTo TupleStore.headRev
  rw [List.take_length]

/-- Query results are identical over a log ending in a duplicated event
and the log ending in the single event. -/
theorem query_entries_dup (E : List TupleMutation) (m : TupleMutation)
    (f : TupleFilter) :
    sortTuples (((E ++ [m, m]).map (fun x => x.tuple)).dedup.filter
      (fun t => matchesFilter f t && liveIn (E ++ [m, m]) t))
    = sortTuples (((E ++ [m]).map (fun x => x.tuple)).dedup.filter
      (fun t => matchesFilter f t && liveIn (E ++ [m]) t)) := by
  have hmap : (E ++ [m, m]).map (fun x => x.tuple)
      = E.map (fun x => x.tuple) ++ [m.tuple, m.tuple] := by simp
  have hmap1 : (E ++ [m]).map (fun x => x.tuple)
      = E.map (fun x => x.tuple) ++ [m.tuple] := by simp
  rw [hmap, hmap1, dedup_dup]
  congr 1
  apply List.filter_congr
  intro t _
  rw [liveIn_dup]

/-- The entries up to a revision equal to the whole log's length are the
whole log, flattened. -/
theorem entriesUpTo_full (l : List (List TupleMutation)) :
    TupleStore.entriesUpTo ⟨l⟩ l.length = l.flatten := by
  simp [TupleStore.entriesUpTo]

/-- Queries at the respective heads agree between a log that committed a
duplicate ADD-style event twice — as a second batch or inside one batch —
and the log that committed it once. -/
theorem queryTuples_dup (bs : List (List TupleMutation)) (m : TupleMutation)
    (f : TupleFilter) :
    QueryTuples ⟨(bs ++ [[m]]) ++ [[m]]⟩ f (bs.length + 2)
        = QueryTuples ⟨bs ++ [[m]]⟩ f (bs.length + 1) ∧
    QueryTuples ⟨bs ++ [[m, m]]⟩ f (bs.length + 1)
        = QueryTuples ⟨bs ++ [[m]]⟩ f (bs.length + 1) := by
  have e1 : TupleStore.entriesUpTo ⟨(bs ++ [[m]]) ++ [[m]]⟩ (bs.length + 2)
      = bs.flatten ++ [m, m] := by
    have hl : bs.length + 2 = ((bs ++ [[m]]) ++ [[m]]).length := by simp
    rw [hl, entriesUpTo_full]
    simp
  have e2 : TupleStore.entriesUpTo ⟨bs ++ [[m, m]]⟩ (bs.length + 1)
      = bs.flatten ++ [m, m] := by
    have hl : bs.length + 1 = (bs ++ [[m, m]]).length := by simp
    rw [hl, entriesUpTo_full]
    simp
  have e3 : TupleStore.entriesUpTo ⟨bs ++ [[m]]⟩ (bs.length + 1)
      = bs.flatten ++ [m] := by
    have hl : bs.length + 1 = (bs ++ [[m]]).length := by simp
    rw [hl, entriesUpTo_full]
    simp
  unfold QueryTuples TupleStore.live
  simp only [e1, e2, e3]
  exact ⟨query_entries_dup bs.flatten m f, query_entries_dup bs.flatten m f⟩

/-- Claim C6: duplicate ADD writes are idempotent no-ops. For any store
state whose namespace store knows the tuple's namespace and relation,
committing `ADD T` twice — in two successive batches or twice inside one
batch — succeeds (no error, a fresh revision each commit), and the
queryable contents at the respective head revisions are identical to
committing it once: every query returns the same result list. -/
theorem write_add_idempotent (nsS : NamespaceStore) (s : TupleStore)
    (T : RelationTuple) (hv : tupleValid nsS T = true) :
    (WriteTuples nsS s [⟨.add, T⟩] []).2 = .ok (s.headRev + 1) ∧
    (WriteTuples nsS (WriteTuples nsS s [⟨.add, T⟩] []).1
      [⟨.add, T⟩] []).2 = .ok (s.headRev + 2) ∧
    (WriteTuples nsS s [⟨.add, T⟩, ⟨.add, T⟩] []).2 = .ok (s.headRev + 1) ∧
    (∀ f, QueryTuples
        (WriteTuples nsS (WriteTuples nsS s [⟨.add, T⟩] []).1 [⟨.add, T⟩] []).1
        f (WriteTuples nsS (WriteTuples nsS s [⟨.add, T⟩] []).1
            [⟨.add, T⟩] []).1.headRev
      = QueryTuples (WriteTuples nsS s [⟨.add, T⟩] []).1 f
          (WriteTuples nsS s [⟨.add, T⟩] []).1.headRev) ∧
    (∀ f, QueryTuples (WriteTuples nsS s [⟨.add, T⟩, ⟨.add, T⟩] []).1 f
        (WriteTuples nsS s [⟨.add, T⟩, ⟨.add, T⟩] []).1.headRev
      = QueryTuples (WriteTuples nsS s [⟨.add, T⟩] []).1 f
          (WriteTuples nsS s [⟨.add, T⟩] []).1.headRev) := by
  have hw1 : WriteTuples nsS s [⟨.add, T⟩] []
      = (⟨s.batches ++ [[⟨.add, T⟩]]⟩, .ok (s.headRev + 1)) := by
    simp [WriteTuples, hv]
  have hw2 : WriteTuples nsS (⟨s.batches ++ [[⟨.add, T⟩]]⟩ : TupleStore)
      [⟨.add, T⟩] []
      = (⟨(s.batches ++ [[⟨.add, T⟩]]) ++ [[⟨.add, T⟩]]⟩,
          .ok (s.headRev + 2)) := by
    simp [WriteTuples, hv, TupleStore.headRev]
  have hw12 : WriteTuples nsS s [⟨.add, T⟩, ⟨.add, T⟩] []
      = (⟨s.batches ++ [[⟨.add, T⟩, ⟨.add, T⟩]]⟩, .ok (s.headRev + 1)) := by
    simp [WriteTuples, hv]
  rw [hw1]
  rw [show ((⟨s.batches ++ [[⟨.add, T⟩]]⟩, Except.ok (s.headRev + 1)) :
    TupleStore × Except WriteErr Nat).1 = ⟨s.batches ++ [[⟨.add, T⟩]]⟩ from rfl]
  rw [hw2, hw12]
  refine ⟨rfl, rfl, rfl, fun f => ?_, fun f => ?_⟩
  · have h := (queryTuples_dup s.batches ⟨.add, T⟩ f).1
    simpa [TupleStore.headRev, TupleStore.batchAt] using h
  · have h := (queryTuples_dup s.batches ⟨.add, T⟩ f).2
    simpa [TupleStore.headRev, TupleStore.batchAt] using h

/-- Claim C6, witness: on the concrete store, writing
`doc:1#viewer@user:alice` twice (two batches, or one batch of two)
succeeds and yields the same query result as writing it once. -/
theorem write_add_idempotent_witness :
    (WriteTuples [⟨"doc", [⟨"viewer", none⟩]⟩] ⟨[]⟩
      [⟨.add, ⟨"doc", "1", "viewer", "user", "alice", none⟩⟩] []).2 = .ok 1 ∧
    QueryTuples (WriteTuples [⟨"doc", [⟨"viewer", none⟩]⟩]
        (WriteTuples [⟨"doc", [⟨"viewer", none⟩]⟩] ⟨[]⟩
          [⟨.add, ⟨"doc", "1", "viewer", "user", "alice", none⟩⟩] []).1
        [⟨.add, ⟨"doc", "1", "viewer", "user", "alice", none⟩⟩] []).1
      ⟨"doc", none, none, none, none⟩
      (WriteTuples [⟨"doc", [⟨"viewer", none⟩]⟩]
        (WriteTuples [⟨"doc", [⟨"viewer", none⟩]⟩] ⟨[]⟩
          [⟨.add, ⟨"doc", "1", "viewer", "user", "alice", none⟩⟩] []).1
        [⟨.add, ⟨"doc", "1", "viewer", "user", "alice", none⟩⟩] []).1.headRev
      = QueryTuples (WriteTuples [⟨"doc", [⟨"viewer", none⟩]⟩] ⟨[]⟩
          [⟨.add, ⟨"doc", "1", "viewer", "user", "alice", none⟩⟩] []).1
        ⟨"doc", none, none, none, none⟩
        (WriteTuples [⟨"doc", [⟨"viewer", none⟩]⟩] ⟨[]⟩
          [⟨.add, ⟨"doc", "1", "viewer", "user", "alice", none⟩⟩] []).1.headRev :=
  ⟨(write_add_idempotent [⟨"doc", [⟨"viewer", none⟩]⟩] ⟨[]⟩
      ⟨"doc", "1", "viewer", "user", "alice", none⟩ (by decide)).1,
   (write_add_idempotent [⟨"doc", [⟨"viewer", none⟩]⟩] ⟨[]⟩
      ⟨"doc", "1", "viewer", "user", "alice", none⟩ (by decide)).2.2.2.1
      ⟨"doc", none, none, none, none⟩⟩

/-- Every event delivered from a batch list starting after revision
`start` carries a revision in `(start, start + length]`. -/
theorem eventsFrom_rev_bounds (bs : List (List TupleMutation)) :
    ∀ start e, e ∈ eventsFrom start bs →
      start < e.rev ∧ e.rev ≤ start + bs.length := by
  induction bs with
  | nil =>
      intro start e h
      simp [eventsFrom] at h
  | cons b bs ih =>
      intro start e h
      simp only [eventsFrom, List.mem_append] at h
      rcases h with h | h
      · obtain ⟨m, _, rfl⟩ := List.mem_map.mp h
        simp
      · have := ih (start + 1) e h
        simp only [List.length_cons]
        omega

/-- The delivered stream is chronological: revisions never decrease. -/
theorem eventsFrom_chronological (bs : List (List TupleMutation)) :
    ∀ start,
      List.Pairwise (fun e1 e2 => e1.rev ≤ e2.rev) (eventsFrom start bs) := by
  induction bs with
  | nil => intro start; simp [eventsFrom]
  | cons b bs ih =>
      intro start
      simp only [eventsFrom]
      rw [List.pairwise_append]
      refine ⟨?_, ih (start + 1), ?_⟩
      · rw [List.pairwise_map]
        exact List.pairwise_of_forall (fun _ _ => le_refl _)
      · intro e1 h1 e2 h2
        obtain ⟨m, _, rfl⟩ := List.mem_map.mp h1
        have := (eventsFrom_rev_bounds bs (start + 1) e2 h2).1
        simp
        omega

/-- Grouping: the events delivered for a revision `r` inside the covered
range are exactly the batch committed at `r`, in its write order. -/
theorem eventsFrom_filter_batch (bs : List (List TupleMutation)) :
    ∀ start r, start < r → r ≤ start + bs.length →
      (eventsFrom start bs).filter (fun e => e.rev == r)
        = (bs.getD (r - start - 1) []).map (fun m => ⟨r, m.op, m.tuple⟩) := by
  induction bs with
  | nil =>
      intro start r h1 h2
      simp at h2
      omega
  | cons b bs ih =>
      intro start r h1 h2
      simp only [eventsFrom, List.filter_append]
      by_cases hr : r = start + 1
      · subst hr
        have hmap : (b.map (fun m =>
            (⟨start + 1, m.op, m.tuple⟩ : WatchEvent))).filter
              (fun e => e.rev == start + 1)
            = b.map (fun m => (⟨start + 1, m.op, m.tuple⟩ : WatchEvent)) := by
          rw [List.filter_map]
          simp [Function.comp_def]
        have hrest : (eventsFrom (start + 1) bs).filter
            (fun e => e.rev == start + 1) = [] := by
          rw [List.filter_eq_nil_iff]
          intro e he
          have := (eventsFrom_rev_bounds bs (start + 1) e he).1
          simp
          omega
        rw [hmap, hrest, List.append_nil]
        simp
      · have hmap : (b.map (fun m =>
            (⟨start + 1, m.op, m.tuple⟩ : WatchEvent))).filter
              (fun e => e.rev == r) = [] := by
          rw [List.filter_eq_nil_iff]
          intro e he
          obtain ⟨m, _, rfl⟩ := List.mem_map.mp he
          simp
          omega
        rw [hmap, List.nil_append,
          ih (start + 1) r (by omega) (by simp at h2; omega)]
        have hidx : r - start - 1 = (r - (start + 1) - 1) + 1 := by omega
        rw [hidx, List.getD_cons_succ]

/-- No events outside the covered revision range are ever delivered. -/
theorem eventsFrom_filter_out (bs : List (List TupleMutation))
    (start r : Nat) (h : r ≤ start ∨ start + bs.length < r) :
    (eventsFrom start bs).filter (fun e => e.rev == r) = [] := by
  rw [List.filter_eq_nil_iff]
  intro e he
  have := eventsFrom_rev_bounds bs start e he
  simp
  omega

/-- Claim C8: watch stream ordering. For a subscriber cursor `since`
within the retained history (the log is fully retained, so every
`since ≤ head` is), the delivered stream is chronological — revisions
never decrease, so all events of one batch are contiguous —, for each
revision `since < r ≤ head` the events carrying `r` are exactly the
batch committed at `r` in its write order (delivered once: no revision
skipped, no duplicate delivery), and no event outside `(since, head]` is
delivered at all. -/
theorem watch_ordering (s : TupleStore) (since : Nat)
    (hs : since ≤ s.headRev) :
    List.Pairwise (fun e1 e2 => e1.rev ≤ e2.rev) (Watch s since) ∧
    (∀ r, since < r → r ≤ s.headRev →
      (Watch s since).filter (fun e => e.rev == r)
        = (s.batchAt r).map (fun m => ⟨r, m.op, m.tuple⟩)) ∧
    (∀ r, r ≤ since ∨ s.headRev < r →
      (Watch s since).filter (fun e => e.rev == r) = []) := by
  refine ⟨eventsFrom_chronological _ since, fun r h1 h2 => ?_, fun r h => ?_⟩
  · unfold Watch
    rw [eventsFrom_filter_batch (s.batches.drop since) since r h1
      (by simp [TupleStore.headRev] at hs h2 ⊢; omega)]
    have hidx : (s.batches.drop since).getD (r - since - 1) []
        = s.batches.getD (r - 1) [] := by
      simp only [List.getD, List.get?_eq_getElem?]
      rw [List.getElem?_drop]
      have : since + (r - since - 1) = r - 1 := by omega
      rw [this]
    rw [hidx]
    unfold TupleStore.batchAt
    rw [if_neg (by omega)]
  · unfold Watch
    exact eventsFrom_filter_out (s.batches.drop since) since r
      (by simp [TupleStore.headRev] at h ⊢; omega)

/-- Claim C8, witness: on a concrete two-batch log watched from cursor 0,
the stream is chronological, revision 1's events are exactly batch 1 in
order, and nothing outside `(0, 2]` is delivered. -/
theorem watch_ordering_witness :
    List.Pairwise (fun e1 e2 => e1.rev ≤ e2.rev)
      (Watch ⟨[[⟨.add, ⟨"doc", "1", "viewer", "user", "alice", none⟩⟩],
        [⟨.add, ⟨"doc", "2", "viewer", "user", "bob", none⟩⟩]]⟩ 0) ∧
    (Watch ⟨[[⟨.add, ⟨"doc", "1", "viewer", "user", "alice", none⟩⟩],
        [⟨.add, ⟨"doc", "2", "viewer", "user", "bob", none⟩⟩]]⟩ 0).filter
      (fun e => e.rev == 1)
      = [⟨1, .add, ⟨"doc", "1", "viewer", "user", "alice", none⟩⟩] ∧
    (Watch ⟨[[⟨.add, ⟨"doc", "1", "viewer", "user", "alice", none⟩⟩],
        [⟨.add, ⟨"doc", "2", "viewer", "user", "bob", none⟩⟩]]⟩ 0).filter
      (fun e => e.rev == 3) = [] := by
  have h := watch_ordering
    ⟨[[⟨.add, ⟨"doc", "1", "viewer", "user", "alice", none⟩⟩],
      [⟨.add, ⟨"doc", "2", "viewer", "user", "bob", none⟩⟩]]⟩ 0 (by decide)
  exact ⟨h.1, by rw [h.2.1 1 (by decide) (by decide)]; rfl,
    h.2.2 3 (by decide)⟩

/-- Claim C10: `rootRun` constructs two fresh in-memory datastore
instances (the next two allocation ids) as locals, passes exactly those
two to `RegisterGrpcServices`, and advances the allocator past them; the
store instances of a second run are disjoint from the first run's, so two
runs share no store state. -/
theorem rootRun_fresh_stores (w : World) :
    (rootRun w).1 = RegisterGrpcServices w.nextId (w.nextId + 1) ∧
    (rootRun w).1.storeIds = [w.nextId + 1, w.nextId] ∧
    (rootRun w).2.nextId = w.nextId + 2 ∧
    ((rootRun w).1.storeIds).Disjoint ((rootRun (rootRun w).2).1.storeIds) := by
  refine ⟨rfl, rfl, rfl, ?_⟩
  intro a ha hb
  simp [rootRun, RegisterGrpcServices, NewACLServer, NewNamespaceServer,
    NewMemdbNamespaceDatastore, NewMemdbTupleDatastore,
    Registration.storeIds] at ha hb
  omega

end SpiceDB
